import Mathlib

set_option maxHeartbeats 1000000
set_option maxRecDepth 4000

/- Verification development for the ZStack AI assistant's core machinery:
   a shallow embedding of the LLM orchestration engine (multi-round chat loop,
   parallel tool dispatch, streaming tool-call reconstruction) from
   src/unnamed/part_002 and of the ZStack REST client (session retry,
   response normalization, path handling) from src/extension/lib/zstack.js.
   JavaScript strings are modelled as Lean String values (the data involved is
   BMP text, so code-unit and code-point lengths agree), JSON values as an
   inductive type, and the JSON.parse / JSON.stringify builtins as executable
   Lean functions. Network transports are modelled as scripted environments. -/

/-- Model of JavaScript String.prototype.includes (substring test). -/
def listHasSub (needle : List Char) : List Char → Bool
  | [] => needle.isEmpty
  | c :: rest => needle.isPrefixOf (c :: rest) || listHasSub needle rest

/-- Model of s.includes(sub) for JavaScript strings. -/
def jsIncludes (s sub : String) : Bool := listHasSub sub.data s.data

/-- Model of s.toLowerCase() (ASCII-adequate for the messages involved). -/
def jsToLower (s : String) : String := String.mk (s.data.map Char.toLower)

/-- Model of s.startsWith(pre). -/
def jsStartsWith (s pre : String) : Bool := pre.data.isPrefixOf s.data

/-- Model of s.slice(0, n) on a JavaScript string. -/
def jsSlice (s : String) (n : Nat) : String := String.mk (s.data.take n)

/-- JSON values (numbers restricted to integers; the program's payloads in the
claims use only integral numbers, and floating point is not modelled). -/
inductive Json where
  | null : Json
  | jbool : Bool → Json
  | jnum : Int → Json
  | jstr : String → Json
  | jarr : List Json → Json
  | jobj : List (String × Json) → Json

/-- JavaScript truthiness of a JSON value ([] and objects are truthy). -/
def jsTruthy : Json → Bool
  | .null => false
  | .jbool b => b
  | .jnum n => n ≠ 0
  | .jstr s => s ≠ ""
  | .jarr _ => true
  | .jobj _ => true

/-- First-match association lookup (JavaScript object property read). -/
def lookupAssoc : List (String × Json) → String → Option Json
  | [], _ => none
  | (k', v) :: rest, k => if k' = k then some v else lookupAssoc rest k

/-- Property read o[k]; none models undefined (also for non-objects). -/
def jsonLookup : Json → String → Option Json
  | .jobj fs, k => lookupAssoc fs k
  | _, _ => none

/-- Property write: overwrite the first occurrence in place, else append
(JavaScript property assignment preserves insertion order). -/
def setAssoc : List (String × Json) → String → Json → List (String × Json)
  | [], k, v => [(k, v)]
  | (k', v') :: rest, k, v =>
    if k' = k then (k, v) :: rest else (k', v') :: setAssoc rest k v

/-- Property assignment o[k] = v (no-op on non-objects). -/
def jsonSetField : Json → String → Json → Json
  | .jobj fs, k, v => .jobj (setAssoc fs k v)
  | j, _, _ => j

def lbraceChar : Char := Char.ofNat 123

def rbraceChar : Char := Char.ofNat 125

/-- Skip JSON whitespace. -/
def skipWs : List Char → List Char
  | [] => []
  | c :: rest =>
    if c = ' ' ∨ c = '\n' ∨ c = '\t' ∨ c = '\r' then skipWs rest else c :: rest

def hexVal (c : Char) : Option Nat :=
  if '0' ≤ c ∧ c ≤ '9' then some (c.toNat - '0'.toNat)
  else if 'a' ≤ c ∧ c ≤ 'f' then some (c.toNat - 'a'.toNat + 10)
  else if 'A' ≤ c ∧ c ≤ 'F' then some (c.toNat - 'A'.toNat + 10)
  else none

/-- Parse the body of a JSON string literal (after the opening quote),
returning the decoded characters and the remainder after the closing quote. -/
def parseStrChars : Nat → List Char → Option (List Char × List Char)
  | 0, _ => none
  | _, [] => none
  | fuel+1, c :: rest =>
    if c = '"' then some ([], rest)
    else if c = '\\' then
      match rest with
      | [] => none
      | e :: rest2 =>
        let cont (ch : Char) (rs : List Char) : Option (List Char × List Char) :=
          match parseStrChars fuel rs with
          | some (cs, rem) => some (ch :: cs, rem)
          | none => none
        if e = '"' then cont '"' rest2
        else if e = '\\' then cont '\\' rest2
        else if e = '/' then cont '/' rest2
        else if e = 'n' then cont '\n' rest2
        else if e = 't' then cont '\t' rest2
        else if e = 'r' then cont '\r' rest2
        else if e = 'b' then cont (Char.ofNat 8) rest2
        else if e = 'f' then cont (Char.ofNat 12) rest2
        else if e = 'u' then
          match rest2 with
          | h1 :: h2 :: h3 :: h4 :: rest3 =>
            match hexVal h1, hexVal h2, hexVal h3, hexVal h4 with
            | some a, some b, some c2, some d =>
              cont (Char.ofNat (((a * 16 + b) * 16 + c2) * 16 + d)) rest3
            | _, _, _, _ => none
          | _ => none
        else none
    else
      match parseStrChars fuel rest with
      | some (cs, rem) => some (c :: cs, rem)
      | none => none

def takeDigits : List Char → List Char × List Char
  | [] => ([], [])
  | c :: rest =>
    if c.isDigit then
      let (ds, rem) := takeDigits rest
      (c :: ds, rem)
    else ([], c :: rest)

def digitsToNat (ds : List Char) : Nat :=
  ds.foldl (fun acc c => acc * 10 + (c.toNat - '0'.toNat)) 0

mutual

/-- Fuel-driven recursive-descent parser for a JSON value (the model of the
JSON.parse builtin; fractional and exponent number forms are not modelled). -/
def parseVal : Nat → List Char → Option (Json × List Char)
  | 0, _ => none
  | fuel+1, cs =>
    match skipWs cs with
    | [] => none
    | c :: rest =>
      if c = 'n' then
        match rest with
        | 'u' :: 'l' :: 'l' :: rem => some (.null, rem)
        | _ => none
      else if c = 't' then
        match rest with
        | 'r' :: 'u' :: 'e' :: rem => some (.jbool true, rem)
        | _ => none
      else if c = 'f' then
        match rest with
        | 'a' :: 'l' :: 's' :: 'e' :: rem => some (.jbool false, rem)
        | _ => none
      else if c = '"' then
        match parseStrChars (rest.length + 1) rest with
        | some (cs2, rem) => some (.jstr (String.mk cs2), rem)
        | none => none
      else if c = '-' then
        match takeDigits rest with
        | ([], _) => none
        | (ds, rem) =>
          match rem with
          | '.' :: _ => none
          | 'e' :: _ => none
          | 'E' :: _ => none
          | _ => some (.jnum (-(digitsToNat ds : Int)), rem)
      else if c.isDigit then
        match takeDigits (c :: rest) with
        | (ds, rem) =>
          match rem with
          | '.' :: _ => none
          | 'e' :: _ => none
          | 'E' :: _ => none
          | _ => some (.jnum (digitsToNat ds), rem)
      else if c = '[' then
        match skipWs rest with
        | ']' :: rem => some (.jarr [], rem)
        | cs2 =>
          match parseElems fuel cs2 with
          | some (xs, rem) => some (.jarr xs, rem)
          | none => none
      else if c = lbraceChar then
        match skipWs rest with
        | [] => none
        | c2 :: rem =>
          if c2 = rbraceChar then some (.jobj [], rem)
          else
            match parseFields fuel (c2 :: rem) with
            | some (fs, rem2) => some (.jobj fs, rem2)
            | none => none
      else none

/-- Parse one-or-more array elements up to the closing bracket. -/
def parseElems : Nat → List Char → Option (List Json × List Char)
  | 0, _ => none
  | fuel+1, cs =>
    match parseVal fuel cs with
    | some (x, rem) =>
      match skipWs rem with
      | ',' :: rem2 =>
        match parseElems fuel rem2 with
        | some (xs, rem3) => some (x :: xs, rem3)
        | none => none
      | ']' :: rem2 => some ([x], rem2)
      | _ => none
    | none => none

/-- Parse one-or-more object fields up to the closing brace. -/
def parseFields : Nat → List Char → Option (List (String × Json) × List Char)
  | 0, _ => none
  | fuel+1, cs =>
    match skipWs cs with
    | '"' :: rest =>
      match parseStrChars (rest.length + 1) rest with
      | some (kcs, rem) =>
        match skipWs rem with
        | ':' :: rem2 =>
          match parseVal fuel rem2 with
          | some (v, rem3) =>
            match skipWs rem3 with
            | ',' :: rem4 =>
              match parseFields fuel rem4 with
              | some (fs, rem5) => some ((String.mk kcs, v) :: fs, rem5)
              | none => none
            | c3 :: rem4 =>
              if c3 = rbraceChar then some ([(String.mk kcs, v)], rem4) else none
            | [] => none
          | none => none
        | _ => none
      | none => none
    | _ => none

end

/-- The (engine-generated, short) SyntaxError message of the modelled
JSON.parse; the model uses one fixed message for every malformed input. -/
def jsonParseFailMsg : String := "Unexpected token in JSON"

/-- Model of JSON.parse: a parse failure throws, modelled as Except.error. -/
def parseJson (s : String) : Except String Json :=
  match parseVal (2 * s.data.length + 2) s.data with
  | some (j, rem) => if (skipWs rem).isEmpty then .ok j else .error jsonParseFailMsg
  | none => .error jsonParseFailMsg

def hexDigitChar (n : Nat) : Char :=
  if n < 10 then Char.ofNat ('0'.toNat + n) else Char.ofNat ('a'.toNat + (n - 10))

/-- JSON.stringify escaping of one character of a string value. -/
def escapeChar (c : Char) : List Char :=
  if c = '"' then ['\\', '"']
  else if c = '\\' then ['\\', '\\']
  else if c = '\n' then ['\\', 'n']
  else if c = '\r' then ['\\', 'r']
  else if c = '\t' then ['\\', 't']
  else if c.toNat = 8 then ['\\', 'b']
  else if c.toNat = 12 then ['\\', 'f']
  else if c.toNat < 32 then
    ['\\', 'u', '0', '0', hexDigitChar (c.toNat / 16), hexDigitChar (c.toNat % 16)]
  else [c]

/-- Serialize a string value with quotes and escapes. -/
def quoteChars (s : String) : List Char := '"' :: (s.data.map escapeChar).flatten ++ ['"']

mutual

/-- Model of the JSON.stringify builtin (character-list form). -/
def stringifyChars : Json → List Char
  | .null => ['n', 'u', 'l', 'l']
  | .jbool true => ['t', 'r', 'u', 'e']
  | .jbool false => ['f', 'a', 'l', 's', 'e']
  | .jnum n => (toString n).data
  | .jstr s => quoteChars s
  | .jarr xs => '[' :: stringifyArr xs ++ [']']
  | .jobj fs => lbraceChar :: stringifyObj fs ++ [rbraceChar]

/-- Comma-joined serialization of array elements. -/
def stringifyArr : List Json → List Char
  | [] => []
  | [x] => stringifyChars x
  | x :: y :: rest => stringifyChars x ++ ',' :: stringifyArr (y :: rest)

/-- Comma-joined serialization of object fields. -/
def stringifyObj : List (String × Json) → List Char
  | [] => []
  | [(k, v)] => quoteChars k ++ ':' :: stringifyChars v
  | (k, v) :: f :: rest =>
    quoteChars k ++ ':' :: stringifyChars v ++ ',' :: stringifyObj (f :: rest)

end

/-- Model of JSON.stringify. -/
def stringify (j : Json) : String := String.mk (stringifyChars j)

/- ===================== ZStack client (src/extension/lib/zstack.js) =====================
   The fetch transport is modelled as a scripted environment
   env : path → n → (status, bodyText) giving the response of the n-th HTTP
   request of the client instance (a global request counter in the state).
   Headers and request bodies do not influence the scripted responses, so the
   SHA-512 password hashing and the Authorization header are not modelled.
   The state carries two instrumentation counters on top of the source's
   fields: httpCount (requests issued) and reloginCount (re-login attempts
   that passed the _relogin guard), plus rfCount counting invocations of the
   request closure wrapped by _withRetry. -/

structure CState where
  sessionId : Option String
  accountName : Option String
  password : Option String
  relogging : Bool
  httpCount : Nat
  rfCount : Nat
  reloginCount : Nat
deriving DecidableEq, Repr

/-- String coercion used by an Error message for a truthy JSON field. -/
def jsDisplay : Json → String
  | .jstr s => s
  | .jnum n => toString n
  | .jbool true => "true"
  | .jbool false => "false"
  | .null => "null"
  | .jarr _ => ""
  | .jobj _ => "[object Object]"

/-- Model of ZStackClient._handleResponse: parse the body as JSON (falling
back to the raw text), return the data on a 2xx status, and otherwise throw
an error message extracted as data.error.details or data.error.description,
else the short raw text body, else an HTTP-status placeholder. -/
def zsHandleResponse (status : Nat) (text : String) : Except String Json :=
  let dataJ : Option Json :=
    match parseJson text with
    | .ok j => some j
    | .error _ => none
  let strData : Option String :=
    match dataJ with
    | some (.jstr s) => some s
    | some _ => none
    | none => some text
  if 200 ≤ status ∧ status < 300 then
    match dataJ with
    | some j => .ok j
    | none => .ok (.jstr text)
  else
    let fromField (k : String) : Option String :=
      match dataJ with
      | some j =>
        match jsonLookup j "error" with
        | some errObj =>
          match jsonLookup errObj k with
          | some v => if jsTruthy v then some (jsDisplay v) else none
          | none => none
        | none => none
      | none => none
    let msg :=
      match fromField "details" with
      | some m => m
      | none =>
        match fromField "description" with
        | some m => m
        | none =>
          match strData with
          | some t => if t.length < 200 ∧ t ≠ "" then t else "HTTP " ++ toString status
          | none => "HTTP " ++ toString status
    .error msg

/-- One raw HTTP request against the scripted transport. -/
def zsDoRequest (env : String → Nat → Nat × String) (path : String) (s : CState) :
    Except String Json × CState :=
  let r := env path s.httpCount
  (zsHandleResponse r.1 r.2, { s with httpCount := s.httpCount + 1 })

/-- The request closure handed to _withRetry by the client verbs; rfCount
instruments how many times the wrapped closure itself is invoked. -/
def zsCountedRequest (env : String → Nat → Nat × String) (path : String) (s : CState) :
    Except String Json × CState :=
  zsDoRequest env path { s with rfCount := s.rfCount + 1 }

def zsLoginFailMsg : String := "登录失败：未获取到 session"

/-- Model of ZStackClient.login: save the credentials, post to the login
endpoint (the login path always takes _rawPost's no-retry branch, see
zsRawPost_login_direct), store res.inventory?.uuid as the session and throw
when it is absent. -/
def zsLogin (env : String → Nat → Nat × String) (accountName password : String)
    (s : CState) : Except String Json × CState :=
  let s1 := { s with accountName := some accountName, password := some password }
  let r := zsDoRequest env "/v1/accounts/login" s1
  match r.1 with
  | .ok res =>
    let uuid : Option String :=
      match jsonLookup res "inventory" with
      | some inv =>
        match jsonLookup inv "uuid" with
        | some (.jstr u) => if u = "" then none else some u
        | _ => none
      | none => none
    match uuid with
    | some u => (.ok res, { r.2 with sessionId := some u })
    | none => (.error zsLoginFailMsg, { r.2 with sessionId := none })
  | .error e => (.error e, r.2)

/-- Model of ZStackClient._relogin: refuse when already re-logging or when no
credentials are cached, otherwise clear the session and attempt one login,
reporting success as a Bool and never throwing. -/
def zsRelogin (env : String → Nat → Nat × String) (s : CState) : Bool × CState :=
  if s.relogging ∨ s.accountName.isNone ∨ s.password.isNone then (false, s)
  else
    let s1 := { s with relogging := true, sessionId := none,
                       reloginCount := s.reloginCount + 1 }
    let r := zsLogin env (s.accountName.getD "") (s.password.getD "") s1
    match r.1 with
    | .ok _ => (true, { r.2 with relogging := false })
    | .error _ => (false, { r.2 with relogging := false })

/-- The session-expiry heuristic of _withRetry on a caught error message. -/
def zsIsExpiryMsg (m : String) : Bool :=
  let ml := jsToLower m
  jsIncludes ml "session" || jsIncludes ml "token" ||
    jsIncludes ml "401" || jsIncludes ml "403"

/-- Model of ZStackClient._withRetry: run the request; on an error that looks
like session expiry (and when not already re-logging) do one silent re-login
and, if it succeeded, retry the same request once; otherwise surface the
original error. -/
def zsWithRetry (env : String → Nat → Nat × String)
    (requestFn : CState → Except String Json × CState) (s : CState) :
    Except String Json × CState :=
  let r := requestFn s
  match r.1 with
  | .ok v => (.ok v, r.2)
  | .error e =>
    if zsIsExpiryMsg e ∧ r.2.relogging = false then
      let rl := zsRelogin env r.2
      match rl.1 with
      | true => requestFn rl.2
      | false => (.error e, rl.2)
    else (.error e, r.2)

/-- Model of ZStackClient._rawPost: login requests are dispatched without the
retry wrapper, every other POST goes through _withRetry. -/
def zsRawPost (env : String → Nat → Nat × String) (path : String) (_body : Json)
    (s : CState) : Except String Json × CState :=
  if jsIncludes path "/accounts/login" then zsDoRequest env path s
  else zsWithRetry env (zsCountedRequest env path) s

/-- Model of ZStackClient._get (also the shape of _put and _delete): a
retry-wrapped request. -/
def zsGetReq (env : String → Nat → Nat × String) (path : String) (s : CState) :
    Except String Json × CState :=
  zsWithRetry env (zsCountedRequest env path) s

/-- Model of the URLSearchParams built by ZStackClient.query: limit always,
start only when non-zero (falsy check), sort only when a sort field is given,
then one q entry per condition. Percent-encoding is modelled as the identity
(the values exercised are URL-safe). -/
def zsQueryParams (limit start : Nat) (sortBy sortDirection : Option String)
    (conditions : List String) : List (String × String) :=
  [("limit", toString limit)]
    ++ (if start ≠ 0 then [("start", toString start)] else [])
    ++ (match sortBy with
        | some sb =>
          if sb ≠ "" then
            [("sort", (if sortDirection = some "desc" then "-" else "+") ++ sb)]
          else []
        | none => [])
    ++ conditions.map (fun c => ("q", c))

def renderParams (ps : List (String × String)) : String :=
  String.intercalate "&" (ps.map (fun p => p.1 ++ "=" ++ p.2))

/-- Model of ZStackClient.query. -/
def zsQuery (env : String → Nat → Nat × String) (resourcePath : String)
    (conditions : List String) (limit start : Nat)
    (sortBy sortDirection : Option String) (s : CState) :
    Except String Json × CState :=
  zsGetReq env
    ("/" ++ resourcePath ++ "?" ++
      renderParams (zsQueryParams limit start sortBy sortDirection conditions))
    s

/-- The envelope normalization inside ZStackClient.get: when data.inventory is
absent (or falsy) and data.inventories is a non-empty array, copy its first
element into data.inventory. -/
def getNormalize (data : Json) : Json :=
  let invMissing : Bool :=
    match jsonLookup data "inventory" with
    | some v => !jsTruthy v
    | none => true
  if invMissing then
    match jsonLookup data "inventories" with
    | some (.jarr (x :: _)) => jsonSetField data "inventory" x
    | _ => data
  else data

/-- Model of ZStackClient.get. -/
def zsGet (env : String → Nat → Nat × String) (resourcePath uuid : String)
    (s : CState) : Except String Json × CState :=
  let r := zsGetReq env ("/" ++ resourcePath ++ "/" ++ uuid) s
  match r.1 with
  | .ok d => (.ok (getNormalize d), r.2)
  | .error e => (.error e, r.2)

/- ===================== LLM engine (src/unnamed/part_002) =====================
   The provider adapters' network behaviour is abstracted per dispatch round
   as a RoundEnv (cancellation-signal state, elapsed wall clock at the top of
   the round and the adapter call's outcome); the underlying ZStack client
   calls made by _executeTool are abstracted as an environment
   env : toolName → parsedArgs → CallOutcome covering the per-tool argument
   plumbing of the dispatch switch. Progress events (emit) are presentation
   only and not modelled. -/

/-- An assembled OpenAI-format tool call (id, function.name,
function.arguments as JSON text). -/
structure OAToolCall where
  id : String
  name : String
  arguments : String
deriving DecidableEq, Repr

instance : Inhabited OAToolCall := ⟨⟨"", "", ""⟩⟩

/-- Outcome of the underlying client call for one dispatched tool. -/
inductive CallOutcome where
  | ok : Json → CallOutcome
  | throws : String → CallOutcome

/-- The tool names of the dispatch switch in LLMEngine._executeTool. -/
def knownTools : List String :=
  ["zstack_query", "zstack_get", "zstack_create", "zstack_delete",
   "zstack_action", "zstack_update", "zstack_zql",
   "query_vms", "create_vm", "start_vm", "stop_vm", "reboot_vm", "delete_vm",
   "migrate_vm", "query_hosts", "query_images", "query_l3_networks",
   "query_instance_offerings", "query_volumes", "query_load_balancers",
   "query_vips", "query_eips", "query_security_groups", "query_vpc_routers"]

def notLoggedInMsg : String := "未连接到 ZStack，请先配置并登录"

/-- The path normalizer used inside LLMEngine._executeTool (fixPath). -/
def fixPath (p : String) : String :=
  if p ≠ "" ∧ jsStartsWith p "v1/" = false then "v1/" ++ p else p

/-- Model of LLMEngine._executeTool: refuse when not connected, dispatch a
known tool to its client call capturing a thrown message as an error object,
and answer an unknown tool with an error object — never throwing. -/
def executeTool (loggedIn : Bool) (env : String → Json → CallOutcome)
    (name : String) (args : Json) : Json :=
  if !loggedIn then .jobj [("error", .jstr notLoggedInMsg)]
  else if knownTools.contains name then
    match env name args with
    | .ok v => v
    | .throws m => .jobj [("error", .jstr m)]
  else .jobj [("error", .jstr ("未知工具: " ++ name))]

/-- The two serialized-result budgets selected by the query mode. -/
def truncateLimit (queryMode : String) : Nat :=
  if queryMode = "full" then 80000 else 30000

/-- Conversation turns as pushed onto this.messages (OpenAI-compatible branch;
the assistantToolCalls turn is the rawMessage recording the tool request). -/
inductive Turn where
  | userMsg : String → Turn
  | assistantMsg : String → Turn
  | assistantToolCalls : Option String → List OAToolCall → Turn
  | toolMsg : String → String → Turn
deriving DecidableEq, Repr

def turnContent : Turn → String
  | .userMsg c => c
  | .assistantMsg c => c
  | .assistantToolCalls c _ => c.getD ""
  | .toolMsg _ c => c

/-- Model of the per-tool-call async closure of LLMEngine.chat's
OpenAI-compatible branch: parse the accumulated argument text, execute the
tool and truncate the serialized result; a thrown argument-parse error is
caught into an untruncated error payload. -/
def runOAToolCall (queryMode : String) (loggedIn : Bool)
    (env : String → Json → CallOutcome) (tc : OAToolCall) : Turn :=
  match parseJson tc.arguments with
  | .ok args =>
    .toolMsg tc.id
      (jsSlice (stringify (executeTool loggedIn env tc.name args))
        (truncateLimit queryMode))
  | .error e => .toolMsg tc.id (stringify (.jobj [("error", .jstr e)]))

/-- The tool-result turns of one OpenAI-branch round, in Promise.all order
(the order of the proposing assistant turn's tool_calls array). -/
def executeOAToolCalls (queryMode : String) (loggedIn : Bool)
    (env : String → Json → CallOutcome) (tcs : List OAToolCall) : List Turn :=
  tcs.map (runOAToolCall queryMode loggedIn env)

/-- An Anthropic tool_use request (input already assembled as JSON). -/
structure AnthToolUse where
  id : String
  name : String
  input : Json

/-- Model of the per-tool-call closure of the Anthropic branch: the result is
serialized and truncated; _executeTool never throws, so the catch branch of
the source is unreachable in the model. Returns (tool_use_id, content). -/
def runAnthToolResult (queryMode : String) (loggedIn : Bool)
    (env : String → Json → CallOutcome) (tc : AnthToolUse) : String × String :=
  (tc.id,
   jsSlice (stringify (executeTool loggedIn env tc.name tc.input))
     (truncateLimit queryMode))

/-- The tool_result entries of the single user turn appended by one
Anthropic-branch round, in Promise.all order. -/
def executeAnthToolResults (queryMode : String) (loggedIn : Bool)
    (env : String → Json → CallOutcome) (tcs : List AnthToolUse) :
    List (String × String) :=
  tcs.map (runAnthToolResult queryMode loggedIn env)

/-- The adapter response consumed by the chat loop. -/
structure OAResponse where
  content : String
  rawContent : Option String
  toolCalls : List OAToolCall
deriving DecidableEq, Repr

/-- What the adapter call of one round did: returned, threw AbortError, or
threw some other error. -/
inductive AdapterOutcome where
  | ok : OAResponse → AdapterOutcome
  | abortError : AdapterOutcome
  | failure : String → AdapterOutcome
deriving DecidableEq, Repr

/-- The observable environment of one dispatch round: the cancellation
signal's state at the top-of-loop check and at the post-call check, the
elapsed wall clock at the top of the round, and the adapter outcome. -/
structure RoundEnv where
  abortedBefore : Bool
  elapsed : Nat
  outcome : AdapterOutcome
  abortedAfter : Bool
deriving DecidableEq, Repr

/-- The value chat resolves with, or the exception it rethrows. -/
inductive ChatResult where
  | answer : String → ChatResult
  | raised : String → ChatResult
deriving DecidableEq, Repr

def stoppedMsg : String := "已停止生成。"

def chatTimeoutMsg : String := "操作超时(5分钟)，部分操作可能已完成。请查看云平台确认状态。"

def roundLimitMsg : String := "操作轮次已达上限，部分操作可能已完成。请查看云平台确认状态。"

def chatTimeoutMs : Nat := 5 * 60 * 1000

/-- One iteration of LLMEngine.chat's dispatch loop (OpenAI-compatible
branch): the two soft-stop checks, then the adapter outcome — AbortError is
caught into the stopped message, other errors are rethrown, a response
without tool calls ends the chat with its content, and a response with tool
calls appends the raw assistant turn plus all tool results and continues. -/
def chatStep (queryMode : String) (loggedIn : Bool)
    (env : String → Json → CallOutcome) (msgs : List Turn) (r : RoundEnv) :
    List Turn ⊕ (ChatResult × List Turn) :=
  if r.abortedBefore then .inr (.answer stoppedMsg, msgs)
  else if chatTimeoutMs < r.elapsed then .inr (.answer chatTimeoutMsg, msgs)
  else
    match r.outcome with
    | .abortError => .inr (.answer stoppedMsg, msgs)
    | .failure m => .inr (.raised m, msgs)
    | .ok resp =>
      if r.abortedAfter then .inr (.answer stoppedMsg, msgs)
      else if resp.toolCalls.isEmpty then
        .inr (.answer resp.content, msgs ++ [.assistantMsg resp.content])
      else
        .inl (msgs ++ [.assistantToolCalls resp.rawContent resp.toolCalls]
                   ++ executeOAToolCalls queryMode loggedIn env resp.toolCalls)

/-- The fuelled dispatch loop: fuel counts the remaining iterations of
`for (let i = 0; i < maxRounds; i++)`, idx the current round number; running
out of fuel returns the round-limit message. -/
def chatAux (queryMode : String) (loggedIn : Bool)
    (env : String → Json → CallOutcome) (rounds : Nat → RoundEnv) :
    Nat → Nat → List Turn → ChatResult × List Turn
  | 0, _, msgs => (.answer roundLimitMsg, msgs)
  | fuel+1, idx, msgs =>
    match chatStep queryMode loggedIn env msgs (rounds idx) with
    | .inl msgs' => chatAux queryMode loggedIn env rounds fuel (idx + 1) msgs'
    | .inr t => t

def maxRounds : Nat := 100

/-- Model of LLMEngine.chat: push the user message and run the dispatch loop
with at most maxRounds iterations. -/
def chat (queryMode : String) (loggedIn : Bool)
    (env : String → Json → CallOutcome) (rounds : Nat → RoundEnv)
    (msgs0 : List Turn) (userMessage : String) : ChatResult × List Turn :=
  chatAux queryMode loggedIn env rounds maxRounds 0 (msgs0 ++ [.userMsg userMessage])

/-- A round whose environment lets the loop continue: no cancellation, within
the time budget, and an adapter response proposing at least one tool call. -/
def continuesRound (r : RoundEnv) : Prop :=
  r.abortedBefore = false ∧ r.elapsed ≤ chatTimeoutMs ∧ r.abortedAfter = false ∧
    ∃ resp, r.outcome = .ok resp ∧ resp.toolCalls ≠ []

/- ===================== Streaming tool-call reconstruction ===================== -/

/-- One tool_calls delta entry of an OpenAI-compatible stream chunk. -/
structure OADelta where
  index : Nat
  id : Option String
  fname : Option String
  fargs : Option String

/-- The accumulator slot toolCalls[idx] of _callOpenAIStream. -/
structure OAAcc where
  id : String
  fname : String
  fargs : String
deriving DecidableEq, Repr

/-- JavaScript truthiness of a possibly-absent string field. -/
def optTruthy : Option String → Bool
  | some s => s ≠ ""
  | none => false

/-- Sparse-array write arr[i] = a (pad with holes when i is past the end). -/
def setAtPad (l : List (Option α)) (i : Nat) (a : α) : List (Option α) :=
  if i < l.length then l.set i (some a)
  else l ++ List.replicate (i - l.length) none ++ [some a]

/-- Sparse-array read arr[i] (undefined for holes and out-of-range). -/
def listGetJoin (l : List (Option α)) (i : Nat) : Option α := (l.get? i).join

/-- Model of the delta.tool_calls handling in _callOpenAIStream: create the
slot on first sight of an index, then overwrite the id and append the name
and argument fragments (each guarded by truthiness). -/
def applyOADelta (arr : List (Option OAAcc)) (d : OADelta) : List (Option OAAcc) :=
  let cur := match listGetJoin arr d.index with
    | some tc => tc
    | none => { id := d.id.getD "", fname := "", fargs := "" }
  let cur := if optTruthy d.id then { cur with id := d.id.getD "" } else cur
  let cur :=
    if optTruthy d.fname then { cur with fname := cur.fname ++ d.fname.getD "" } else cur
  let cur :=
    if optTruthy d.fargs then { cur with fargs := cur.fargs ++ d.fargs.getD "" } else cur
  setAtPad arr d.index cur

/-- Accumulate all tool_calls deltas of one stream (initial array empty). -/
def foldOADeltas (ds : List OADelta) : List (Option OAAcc) := ds.foldl applyOADelta []

/-- The validToolCalls filter at the end of _callOpenAIStream: keep slots that
exist and have a non-empty id and function name. -/
def validOAToolCalls (arr : List (Option OAAcc)) : List OAToolCall :=
  arr.filterMap fun o =>
    match o with
    | some tc =>
      if tc.id ≠ "" ∧ tc.fname ≠ "" then some ⟨tc.id, tc.fname, tc.fargs⟩ else none
    | none => none

/-- A content block being assembled by _callAnthropicStream. -/
inductive AnthBlock where
  | textBlock : String → AnthBlock
  | toolUseBlock : String → String → Json → AnthBlock

/-- The SSE events of an Anthropic stream that touch the adapter state
(message_start / message_delta / message_stop are otherEvent: no effect). -/
inductive AnthEvent where
  | blockStartText : Nat → AnthEvent
  | blockStartToolUse : Nat → String → String → AnthEvent
  | textDelta : Nat → String → AnthEvent
  | inputJsonDelta : Nat → String → AnthEvent
  | blockStop : AnthEvent
  | otherEvent : AnthEvent

/-- The mutable state of _callAnthropicStream's event loop. -/
structure AnthState where
  contentBlocks : List (Option AnthBlock)
  currentBlockIndex : Option Nat
  currentBlockType : String
  textContent : String
  inputJsonStr : String

def anthInit : AnthState :=
  { contentBlocks := [], currentBlockIndex := none, currentBlockType := "",
    textContent := "", inputJsonStr := "" }

/-- Model of the switch over Anthropic stream events: tool_use block starts
reset the input-JSON accumulator, input_json_delta events append to it, and
content_block_stop parses the accumulation (empty falls back to "{}"),
defaulting the input to the empty object when the parse throws. -/
def applyAnthEvent (st : AnthState) (e : AnthEvent) : AnthState :=
  match e with
  | .blockStartText i =>
    { st with currentBlockIndex := some i, currentBlockType := "text",
              contentBlocks := setAtPad st.contentBlocks i (.textBlock "") }
  | .blockStartToolUse i id nm =>
    { st with currentBlockIndex := some i, currentBlockType := "tool_use",
              contentBlocks := setAtPad st.contentBlocks i (.toolUseBlock id nm (.jobj [])),
              inputJsonStr := "" }
  | .textDelta i t =>
    if t = "" then st
    else
      let st := { st with textContent := st.textContent ++ t }
      match listGetJoin st.contentBlocks i with
      | some (AnthBlock.textBlock s) =>
        { st with contentBlocks := setAtPad st.contentBlocks i (.textBlock (s ++ t)) }
      | _ => st
  | .inputJsonDelta _ t =>
    if t = "" then st else { st with inputJsonStr := st.inputJsonStr ++ t }
  | .blockStop =>
    if st.currentBlockType = "tool_use" then
      match st.currentBlockIndex with
      | some i =>
        match listGetJoin st.contentBlocks i with
        | some (AnthBlock.toolUseBlock id nm _) =>
          let raw :=
            if st.inputJsonStr = "" then String.mk [lbraceChar, rbraceChar]
            else st.inputJsonStr
          let input :=
            match parseJson raw with
            | .ok j => j
            | .error _ => Json.jobj []
          { st with contentBlocks := setAtPad st.contentBlocks i (.toolUseBlock id nm input),
                    inputJsonStr := "" }
        | _ => st
      | none => st
    else st
  | .otherEvent => st

/-- Run the Anthropic event loop from the initial state. -/
def foldAnthEvents (es : List AnthEvent) : AnthState := es.foldl applyAnthEvent anthInit

/- ===================== Completion-order model for Promise.all ===================== -/

/-- One round's tool results as delivered by an arbitrary completion schedule:
order lists the call indices in the order the concurrent executions settle,
and each settlement writes its result into the slot reserved for that call
index (exactly how Promise.all assembles its result array). -/
def roundScheduled (queryMode : String) (loggedIn : Bool)
    (env : String → Json → CallOutcome) (tcs : List OAToolCall)
    (order : List Nat) : List (Option Turn) :=
  order.foldl
    (fun acc i =>
      acc.set i (some (runOAToolCall queryMode loggedIn env (tcs.getD i default))))
    (List.replicate tcs.length none)

/-- Observation: the assembled input of the tool_use block at index i. -/
def anthBlockInput (st : AnthState) (i : Nat) : Json :=
  match listGetJoin st.contentBlocks i with
  | some (AnthBlock.toolUseBlock _ _ j) => j
  | _ => .null

instance : Inhabited Turn := ⟨.userMsg ""⟩

/- ===================== Concrete test fixtures ===================== -/

/-- Three tool calls proposed in one round (empty-object arguments). -/
def tcsW3 : List OAToolCall :=
  [⟨"call_a", "zstack_query", "\x7b\x7d"⟩,
   ⟨"call_b", "query_vms", "\x7b\x7d"⟩,
   ⟨"call_c", "query_hosts", "\x7b\x7d"⟩]

/-- A client environment whose query_vms call throws and whose other calls
succeed. -/
def envW3 : String → Json → CallOutcome := fun nm _ =>
  if nm = "query_vms" then .throws "boom" else .ok (.jstr "ok")

/-- A model stub that proposes the same single tool call on every round. -/
def roundsToolLoop : Nat → RoundEnv := fun _ =>
  ⟨false, 0, .ok ⟨"", none, [⟨"call_a", "zstack_query", "\x7b\x7d"⟩]⟩, false⟩

/-- A model stub whose very first adapter call throws AbortError. -/
def roundsAborted : Nat → RoundEnv := fun _ => ⟨false, 0, .abortError, false⟩

/-- A model stub observed only after the wall-clock budget has elapsed. -/
def roundsLate : Nat → RoundEnv := fun _ =>
  ⟨false, 300001, .ok ⟨"", none, [⟨"call_a", "zstack_query", "\x7b\x7d"⟩]⟩, false⟩

def expiredBodyW : String := "\x7b\"error\":\x7b\"details\":\"session expired\"\x7d\x7d"

def loginOkBodyW : String := "\x7b\"inventory\":\x7b\"uuid\":\"sess-2\"\x7d\x7d"

def queryOkBodyW : String := "\x7b\"inventories\":[]\x7d"

/-- Scripted transport for the session-retry scenario: the first data request
returns HTTP 401 with a "session expired" error body, the login endpoint
succeeds, and every later data request succeeds. -/
def envRetryOkW : String → Nat → Nat × String := fun path n =>
  if path = "/v1/accounts/login" then (200, loginOkBodyW)
  else if n = 0 then (401, expiredBodyW) else (200, queryOkBodyW)

/-- Same scenario but the re-login response carries no session inventory, so
the silent re-login fails. -/
def envRetryFailW : String → Nat → Nat × String := fun path n =>
  if path = "/v1/accounts/login" then (200, "\x7b\x7d")
  else if n = 0 then (401, expiredBodyW) else (200, queryOkBodyW)

/-- A logged-in client state with cached credentials and zeroed counters. -/
def csW : CState :=
  { sessionId := some "sess-1", accountName := some "admin", password := some "pw",
    relogging := false, httpCount := 0, rfCount := 0, reloginCount := 0 }

/- ===================== Helper lemmas ===================== -/

theorem jsSlice_length_le (s : String) (n : Nat) : (jsSlice s n).length ≤ n := by
  simp [jsSlice]

theorem parseJson_error_eq {s e : String} (h : parseJson s = .error e) :
    e = jsonParseFailMsg := by
  unfold parseJson at h
  split at h
  · split at h
    · simp at h
    · injection h with h
      exact h.symm
  · injection h with h
    exact h.symm

theorem truncateLimit_ge (queryMode : String) : 30000 ≤ truncateLimit queryMode := by
  unfold truncateLimit
  split <;> omega

theorem parseFail_payload_short :
    (stringify (.jobj [("error", .jstr jsonParseFailMsg)])).length ≤ 30000 := by decide

theorem jsStartsWith_v1_append (p : String) : jsStartsWith ("v1/" ++ p) "v1/" = true := by
  simp [jsStartsWith, String.data_append, List.isPrefixOf_iff_prefix]

theorem v1_append_ne_empty (p : String) : "v1/" ++ p ≠ "" := by
  intro h
  have hd := congrArg String.data h
  simp [String.data_append] at hd

/- ===================== Claim theorems ===================== -/

/-- Claim C7 (amended): fixPath is idempotent on every path string, a path
already carrying the "v1/" prefix is returned unchanged, and a nonempty path
lacking the prefix gains it exactly once; the empty string (falsy in the
source's `p && !p.startsWith('v1/')` guard) is returned unchanged without
gaining the prefix. -/
theorem c7_path_normalization (p : String) :
    fixPath (fixPath p) = fixPath p ∧
    (jsStartsWith p "v1/" = true → fixPath p = p) ∧
    (p ≠ "" → jsStartsWith p "v1/" = false → fixPath p = "v1/" ++ p) := by
  by_cases hp : p = ""
  · subst hp
    refine ⟨by decide, fun h => by decide, fun h _ => absurd rfl h⟩
  · by_cases hs : jsStartsWith p "v1/" = true
    · have h1 : fixPath p = p := by simp [fixPath, hs]
      exact ⟨by rw [h1, h1], fun _ => h1, fun _ hf => by rw [hs] at hf; cases hf⟩
    · have hs' : jsStartsWith p "v1/" = false := by
        cases h : jsStartsWith p "v1/"
        · rfl
        · exact absurd h hs
      have h1 : fixPath p = "v1/" ++ p := by simp [fixPath, hp, hs']
      have h2 : fixPath ("v1/" ++ p) = "v1/" ++ p := by
        simp [fixPath, jsStartsWith_v1_append p]
      exact ⟨by rw [h1, h2], fun h => absurd h hs, fun _ _ => h1⟩

/-- Witness for C7 at the concrete path "hosts". -/
theorem c7_path_normalization_witness :
    fixPath (fixPath "hosts") = fixPath "hosts" ∧ fixPath "hosts" = "v1/hosts" :=
  ⟨(c7_path_normalization "hosts").1,
   (c7_path_normalization "hosts").2.2 (by decide) (by decide)⟩

/-- Counterexample to claim C7 as stated: the empty string is a path lacking
the required "v1/" prefix, yet fixPath returns it unchanged — it does not
gain the prefix. -/
theorem c7_claim_counterexample :
    fixPath "" = "" ∧ jsStartsWith (fixPath "") "v1/" = false := by decide

/-- Claim C8: a collection-of-one response and a single-entity response both
normalize through get() to a value carrying the entity under the
single-entity field "inventory" — stated for every entity value, and run
end-to-end through the client's get on the two response shapes of the claim
(body wrapping uuid "x"). -/
theorem c8_get_normalization :
    (∀ e : Json,
      jsonLookup (getNormalize (.jobj [("inventories", .jarr [e])])) "inventory" = some e ∧
      jsonLookup (getNormalize (.jobj [("inventory", e)])) "inventory" = some e) ∧
    ((zsGet (fun _ _ => (200, "\x7b\"inventories\":[\x7b\"uuid\":\"x\"\x7d]\x7d"))
        "v1/vm-instances" "x" ⟨some "s", none, none, false, 0, 0, 0⟩).1.map
          (fun d => jsonLookup d "inventory")
        = .ok (some (.jobj [("uuid", .jstr "x")])) ∧
     (zsGet (fun _ _ => (200, "\x7b\"inventory\":\x7b\"uuid\":\"x\"\x7d\x7d"))
        "v1/vm-instances" "x" ⟨some "s", none, none, false, 0, 0, 0⟩).1.map
          (fun d => jsonLookup d "inventory")
        = .ok (some (.jobj [("uuid", .jstr "x")]))) := by
  refine ⟨fun e => ⟨?_, ?_⟩, by rfl, by rfl⟩
  · simp [getNormalize, jsonLookup, lookupAssoc, jsonSetField, setAssoc]
  · cases h : jsTruthy e <;>
      simp [getNormalize, jsonLookup, lookupAssoc, jsonSetField, setAssoc, h]

/-- Claim C5: every tool-result content string appended to the conversation
has length at most the mode's budget (30000 in compact mode, 80000 in full
mode) — for the OpenAI-compatible per-call closure (whose success branch
truncates with slice and whose catch branch serializes the engine's short
parse-error message) and for the Anthropic per-call closure. -/
theorem c5_truncation_bound (queryMode : String) (loggedIn : Bool)
    (env : String → Json → CallOutcome) (tc : OAToolCall) (atc : AnthToolUse) :
    (turnContent (runOAToolCall queryMode loggedIn env tc)).length
        ≤ truncateLimit queryMode ∧
    ((runAnthToolResult queryMode loggedIn env atc).2).length
        ≤ truncateLimit queryMode := by
  constructor
  · unfold runOAToolCall
    cases h : parseJson tc.arguments with
    | ok args =>
      simpa [turnContent] using jsSlice_length_le
        (stringify (executeTool loggedIn env tc.name args)) (truncateLimit queryMode)
    | error e =>
      have he := parseJson_error_eq h
      subst he
      simp only [turnContent]
      exact Nat.le_trans parseFail_payload_short (truncateLimit_ge queryMode)
  · exact jsSlice_length_le _ _

theorem getD_map_of_lt {α β : Type} [Inhabited α] [Inhabited β] (f : α → β)
    (l : List α) (i : Nat) (h : i < l.length) :
    (l.map f).getD i default = f (l.getD i default) := by
  have h' : l[i]? = some (l[i]) := List.getElem?_eq_getElem h
  simp [List.getD_eq_getElem?_getD, List.getElem?_map, h']

/-- Claim C4 (amended): streamed argument fragments for one call index are
accumulated by concatenation in delivery order in both adapters, and the
claim's concrete fragments reconstruct to the arguments object {a:1, b:2};
on a parse failure the Anthropic adapter (which parses at
content_block_stop) defaults the input to the empty object, while in the
OpenAI-compatible path the parse happens in the execution step, whose parse
failure yields an error payload for that call instead (see the
counterexample) — the round proceeds either way. -/
theorem c4_fragment_reconstruction :
    (∀ cid nm f1 f2 : String,
      (listGetJoin (foldOADeltas
          [⟨0, some cid, some nm, some f1⟩, ⟨0, none, none, some f2⟩]) 0).map OAAcc.fargs
        = some (f1 ++ f2)) ∧
    (validOAToolCalls (foldOADeltas
        [⟨0, some "call_1", some "zstack_query", some "\x7b\"a\":1,"⟩,
         ⟨0, none, none, some "\"b\":2\x7d"⟩])
      = [⟨"call_1", "zstack_query", "\x7b\"a\":1,\"b\":2\x7d"⟩]) ∧
    (parseJson ("\x7b\"a\":1," ++ "\"b\":2\x7d")
      = .ok (.jobj [("a", .jnum 1), ("b", .jnum 2)])) ∧
    (anthBlockInput (foldAnthEvents
        [.blockStartToolUse 0 "toolu_1" "zstack_query",
         .inputJsonDelta 0 "\x7b\"a\":1,", .inputJsonDelta 0 "\"b\":2\x7d", .blockStop]) 0
      = .jobj [("a", .jnum 1), ("b", .jnum 2)]) ∧
    (∀ cid nm frag e : String, frag ≠ "" → parseJson frag = .error e →
      anthBlockInput (foldAnthEvents
          [.blockStartToolUse 0 cid nm, .inputJsonDelta 0 frag, .blockStop]) 0
        = .jobj []) := by
  refine ⟨?_, by rfl, by rfl, by rfl, ?_⟩
  · intro cid nm f1 f2
    have hid : ("" : String) ++ f2 = f2 := rfl
    by_cases h1 : cid = "" <;> by_cases h2 : nm = "" <;>
      by_cases h3 : f1 = "" <;> by_cases h4 : f2 = "" <;>
        simp_all [foldOADeltas, applyOADelta, listGetJoin, setAtPad, optTruthy]
  · intro cid nm frag e hne hparse
    have hid : ("" : String) ++ frag = frag := rfl
    simp [foldAnthEvents, applyAnthEvent, setAtPad, listGetJoin, anthBlockInput,
          anthInit, hid, hne, hparse]

/-- Witness for C4's parse-failure clause at the concrete fragment
"not json". -/
theorem c4_fragment_reconstruction_witness :
    anthBlockInput (foldAnthEvents
        [.blockStartToolUse 0 "toolu_9" "zstack_query",
         .inputJsonDelta 0 "not json", .blockStop]) 0 = .jobj [] :=
  c4_fragment_reconstruction.2.2.2.2 "toolu_9" "zstack_query" "not json"
    jsonParseFailMsg (by decide) (by rfl)

/-- Counterexample to claim C4 as stated: for an OpenAI-streamed tool call
whose concatenated argument text "not json" fails to parse, the arguments do
NOT default to the empty object — the execution step catches the parse error
and appends an error payload (the payload differs from the one that
executing the call with empty-object arguments would have produced). -/
theorem c4_claim_counterexample :
    runOAToolCall "compact" true (fun _ _ => .ok (.jstr "ok"))
        ⟨"call_1", "query_vms", "not json"⟩
      = .toolMsg "call_1" (stringify (.jobj [("error", .jstr jsonParseFailMsg)])) ∧
    stringify (.jobj [("error", .jstr jsonParseFailMsg)])
      ≠ jsSlice (stringify (.jstr "ok")) (truncateLimit "compact") :=
  ⟨by rfl, by decide⟩

theorem executeTool_known_throws {env : String → Json → CallOutcome}
    {nm : String} {args : Json} {m : String}
    (hk : knownTools.contains nm = true) (ht : env nm args = .throws m) :
    executeTool true env nm args = .jobj [("error", .jstr m)] := by
  have hk' : nm ∈ knownTools := by simpa using hk
  simp [executeTool, hk', ht]

theorem executeTool_known_ok {env : String → Json → CallOutcome}
    {nm : String} {args : Json} {v : Json}
    (hk : knownTools.contains nm = true) (ho : env nm args = .ok v) :
    executeTool true env nm args = v := by
  have hk' : nm ∈ knownTools := by simpa using hk
  simp [executeTool, hk', ho]

/-- Claim C1: when one round proposes N tool calls and the underlying client
call of exactly one of them throws, the engine still produces exactly N
tool-result turns — an error payload for the failing call and success
payloads for the others — and the dispatch loop continues to the next round
instead of aborting. Stated for the OpenAI-compatible branch (separate
tool-result turns appended after the raw assistant turn) and, in the last
two clauses, for the Anthropic branch's result entries. -/
theorem c1_fanout_isolation (queryMode : String) (env : String → Json → CallOutcome)
    (tcs : List OAToolCall) (j : Nat) (argv vals : Nat → Json) (m : String)
    (hj : j < tcs.length)
    (hparse : ∀ i, i < tcs.length →
      parseJson ((tcs.getD i default).arguments) = .ok (argv i))
    (hknown : ∀ i, i < tcs.length →
      knownTools.contains (tcs.getD i default).name = true)
    (hthrow : env (tcs.getD j default).name (argv j) = .throws m)
    (hok : ∀ i, i < tcs.length → i ≠ j →
      env (tcs.getD i default).name (argv i) = .ok (vals i)) :
    (executeOAToolCalls queryMode true env tcs).length = tcs.length ∧
    (executeOAToolCalls queryMode true env tcs).getD j default
      = .toolMsg (tcs.getD j default).id
          (jsSlice (stringify (.jobj [("error", .jstr m)])) (truncateLimit queryMode)) ∧
    (∀ i, i < tcs.length → i ≠ j →
      (executeOAToolCalls queryMode true env tcs).getD i default
        = .toolMsg (tcs.getD i default).id
            (jsSlice (stringify (vals i)) (truncateLimit queryMode))) ∧
    (∀ (msgs : List Turn) (r : RoundEnv) (resp : OAResponse),
      r.abortedBefore = false → r.elapsed ≤ chatTimeoutMs →
      r.outcome = .ok resp → r.abortedAfter = false → resp.toolCalls = tcs →
      tcs ≠ [] →
      chatStep queryMode true env msgs r
        = .inl (msgs ++ [.assistantToolCalls resp.rawContent tcs]
                     ++ executeOAToolCalls queryMode true env tcs)) ∧
    (∀ (atc : AnthToolUse) (m' : String), knownTools.contains atc.name = true →
      env atc.name atc.input = .throws m' →
      runAnthToolResult queryMode true env atc
        = (atc.id,
           jsSlice (stringify (.jobj [("error", .jstr m')])) (truncateLimit queryMode))) ∧
    (∀ atcs : List AnthToolUse,
      (executeAnthToolResults queryMode true env atcs).length = atcs.length) := by
  refine ⟨by simp [executeOAToolCalls], ?_, ?_, ?_, ?_, by simp [executeAnthToolResults]⟩
  · rw [executeOAToolCalls, getD_map_of_lt _ _ _ hj]
    simp only [runOAToolCall, hparse j hj]
    rw [executeTool_known_throws (hknown j hj) hthrow]
  · intro i hi hne
    rw [executeOAToolCalls, getD_map_of_lt _ _ _ hi]
    simp only [runOAToolCall, hparse i hi]
    rw [executeTool_known_ok (hknown i hi) (hok i hi hne)]
  · intro msgs r resp h1 h2 h3 h4 h5 h6
    rw [chatStep, h1, h3]
    simp only [Bool.false_eq_true, if_false]
    rw [if_neg (by omega), h4]
    simp only [Bool.false_eq_true, if_false]
    rw [h5, if_neg (by simp [h6])]
  · intro atc m' hk ht
    simp only [runAnthToolResult]
    rw [executeTool_known_throws hk ht]

/-- Witness for C1: three concrete tool calls of which exactly the second
one's client call throws. -/
theorem c1_fanout_isolation_witness :
    (executeOAToolCalls "compact" true envW3 tcsW3).length = tcsW3.length ∧
    (executeOAToolCalls "compact" true envW3 tcsW3).getD 1 default
      = .toolMsg (tcsW3.getD 1 default).id
          (jsSlice (stringify (.jobj [("error", .jstr "boom")])) (truncateLimit "compact")) ∧
    (executeOAToolCalls "compact" true envW3 tcsW3).getD 0 default
      = .toolMsg (tcsW3.getD 0 default).id
          (jsSlice (stringify (.jstr "ok")) (truncateLimit "compact")) := by
  have h := c1_fanout_isolation "compact" envW3 tcsW3 1
    (fun _ => .jobj []) (fun _ => .jstr "ok") "boom"
    (by decide)
    (by intro i hi
        replace hi : i < 3 := by simpa [tcsW3] using hi
        interval_cases i <;> rfl)
    (by intro i hi
        replace hi : i < 3 := by simpa [tcsW3] using hi
        interval_cases i <;> rfl)
    (by rfl)
    (by intro i hi hne
        replace hi : i < 3 := by simpa [tcsW3] using hi
        interval_cases i
        · rfl
        · exact absurd rfl hne
        · rfl)
  exact ⟨h.1, h.2.1, h.2.2.1 0 (by decide) (by decide)⟩

theorem zsLogin_counts (env : String → Nat → Nat × String) (a p : String) (s : CState) :
    ((zsLogin env a p s).2).rfCount = s.rfCount ∧
    ((zsLogin env a p s).2).reloginCount = s.reloginCount ∧
    ((zsLogin env a p s).2).relogging = s.relogging := by
  simp only [zsLogin]
  cases hres : (zsDoRequest env "/v1/accounts/login"
      { s with accountName := some a, password := some p }).1 with
  | ok r =>
    (split <;> try split) <;>
      exact ⟨by simp [zsDoRequest], by simp [zsDoRequest], by simp [zsDoRequest]⟩
  | error e =>
    exact ⟨by simp [zsDoRequest], by simp [zsDoRequest], by simp [zsDoRequest]⟩

theorem zsRelogin_counts (env : String → Nat → Nat × String) (s : CState) :
    ((zsRelogin env s).2).rfCount = s.rfCount ∧
    ((zsRelogin env s).2).reloginCount ≤ s.reloginCount + 1 := by
  have hc := zsLogin_counts env (s.accountName.getD "") (s.password.getD "")
      { s with relogging := true, sessionId := none,
               reloginCount := s.reloginCount + 1 }
  simp only [zsRelogin]
  split
  · exact ⟨rfl, Nat.le_succ _⟩
  · split
    · constructor <;> simp at hc ⊢ <;> omega
    · constructor <;> simp at hc ⊢ <;> omega

theorem zsWithRetry_bounds (env : String → Nat → Nat × String) (path : String)
    (s : CState) :
    ((zsWithRetry env (zsCountedRequest env path) s).2).rfCount ≤ s.rfCount + 2 ∧
    ((zsWithRetry env (zsCountedRequest env path) s).2).reloginCount
      ≤ s.reloginCount + 1 := by
  have hc := zsRelogin_counts env
      { s with rfCount := s.rfCount + 1, httpCount := s.httpCount + 1 }
  simp only [zsWithRetry, zsCountedRequest, zsDoRequest]
  split
  · constructor <;> simp
  · split
    · split
      · constructor <;> simp at hc ⊢ <;> omega
      · constructor <;> simp at hc ⊢ <;> omega
    · constructor <;> simp

/-- Claim C3: a Resource Client request that first fails with HTTP 401 and
body with error.details "session expired", followed by a successful silent
re-login, is retried exactly once and succeeds — with exactly one re-login
triggered and the refreshed session stored; if the re-login fails, the
original error is surfaced; and in general one wrapped client call performs
at most two invocations of the underlying request and at most one re-login. -/
theorem c3_session_retry :
    ((zsQuery envRetryOkW "vm-instances" [] 5 0 none none csW).1
        = .ok (.jobj [("inventories", .jarr [])]) ∧
     (zsQuery envRetryOkW "vm-instances" [] 5 0 none none csW).2.reloginCount = 1 ∧
     (zsQuery envRetryOkW "vm-instances" [] 5 0 none none csW).2.rfCount = 2 ∧
     (zsQuery envRetryOkW "vm-instances" [] 5 0 none none csW).2.sessionId
        = some "sess-2") ∧
    ((zsQuery envRetryFailW "vm-instances" [] 5 0 none none csW).1
        = .error "session expired" ∧
     (zsQuery envRetryFailW "vm-instances" [] 5 0 none none csW).2.reloginCount = 1) ∧
    (∀ (env : String → Nat → Nat × String) (path : String) (s : CState),
      ((zsWithRetry env (zsCountedRequest env path) s).2).rfCount ≤ s.rfCount + 2 ∧
      ((zsWithRetry env (zsCountedRequest env path) s).2).reloginCount
        ≤ s.reloginCount + 1) :=
  ⟨⟨rfl, rfl, rfl, rfl⟩, ⟨rfl, rfl⟩, fun env path s => zsWithRetry_bounds env path s⟩

/-- Claim C10: re-authentication can never recurse or cascade — login-path
requests bypass the retry wrapper entirely, a re-login attempted while one
is already in flight returns false immediately without touching the state,
and a retry-wrapped client call performs at most two invocations of the
underlying request and at most one re-login. -/
theorem c10_relogin_guard :
    (∀ (env : String → Nat → Nat × String) (s : CState), s.relogging = true →
      zsRelogin env s = (false, s)) ∧
    (∀ (env : String → Nat → Nat × String) (path : String) (body : Json)
        (s : CState), jsIncludes path "/accounts/login" = true →
      zsRawPost env path body s = zsDoRequest env path s) ∧
    (∀ (env : String → Nat → Nat × String) (path : String) (s : CState),
      ((zsWithRetry env (zsCountedRequest env path) s).2).rfCount ≤ s.rfCount + 2 ∧
      ((zsWithRetry env (zsCountedRequest env path) s).2).reloginCount
        ≤ s.reloginCount + 1) := by
  refine ⟨?_, ?_, fun env path s => zsWithRetry_bounds env path s⟩
  · intro env s h
    simp [zsRelogin, h]
  · intro env path body s h
    simp [zsRawPost, h]

/-- Witness for C10: a concrete in-flight re-login is refused, and a concrete
login-path post is dispatched without the retry wrapper. -/
theorem c10_relogin_guard_witness :
    zsRelogin envRetryOkW { csW with relogging := true }
      = (false, { csW with relogging := true }) ∧
    zsRawPost envRetryOkW "/v1/accounts/login" (.jobj []) csW
      = zsDoRequest envRetryOkW "/v1/accounts/login" csW :=
  ⟨c10_relogin_guard.1 envRetryOkW { csW with relogging := true } rfl,
   c10_relogin_guard.2.1 envRetryOkW "/v1/accounts/login" (.jobj []) csW (by decide)⟩

theorem chatStep_continue {queryMode : String} {loggedIn : Bool}
    {env : String → Json → CallOutcome} {msgs : List Turn} {r : RoundEnv}
    {resp : OAResponse}
    (h1 : r.abortedBefore = false) (h2 : r.elapsed ≤ chatTimeoutMs)
    (h3 : r.outcome = .ok resp) (h4 : r.abortedAfter = false)
    (h5 : resp.toolCalls ≠ []) :
    chatStep queryMode loggedIn env msgs r
      = .inl (msgs ++ [.assistantToolCalls resp.rawContent resp.toolCalls]
                   ++ executeOAToolCalls queryMode loggedIn env resp.toolCalls) := by
  rw [chatStep, h1, h3]
  simp only [Bool.false_eq_true, if_false]
  rw [if_neg (by omega), h4]
  simp only [Bool.false_eq_true, if_false]
  rw [if_neg (by simp [h5])]

theorem chatStep_of_continues (queryMode : String) (loggedIn : Bool)
    (env : String → Json → CallOutcome) (msgs : List Turn) {r : RoundEnv}
    (h : continuesRound r) :
    ∃ msgs', chatStep queryMode loggedIn env msgs r = .inl msgs' := by
  obtain ⟨h1, h2, h4, resp, h3, h5⟩ := h
  exact ⟨_, chatStep_continue h1 h2 h3 h4 h5⟩

theorem chatAux_reach (queryMode : String) (loggedIn : Bool)
    (env : String → Json → CallOutcome) (rounds : Nat → RoundEnv) :
    ∀ (k fuel i : Nat) (msgs : List Turn),
      (∀ j, j < k → continuesRound (rounds (i + j))) →
      ∃ msgs', chatAux queryMode loggedIn env rounds (k + fuel) i msgs
        = chatAux queryMode loggedIn env rounds fuel (i + k) msgs' := by
  intro k
  induction k with
  | zero => exact fun fuel i msgs _ => ⟨msgs, by simp⟩
  | succ k ih =>
    intro fuel i msgs h
    obtain ⟨msgs1, hstep⟩ :=
      chatStep_of_continues queryMode loggedIn env msgs
        (by simpa using h 0 (Nat.succ_pos k))
    have harith : k + 1 + fuel = (k + fuel) + 1 := by omega
    rw [harith, chatAux, hstep]
    have h' : ∀ j, j < k → continuesRound (rounds (i + 1 + j)) := by
      intro j hj
      have := h (j + 1) (by omega)
      have hidx : i + (j + 1) = i + 1 + j := by omega
      rwa [hidx] at this
    obtain ⟨msgs', hrec⟩ := ih fuel (i + 1) msgs1 h'
    refine ⟨msgs', ?_⟩
    show chatAux queryMode loggedIn env rounds (k + fuel) (i + 1) msgs1
        = chatAux queryMode loggedIn env rounds fuel (i + (k + 1)) msgs'
    rw [hrec]
    have hidx2 : i + 1 + k = i + (k + 1) := by omega
    rw [hidx2]

/-- Claim C2: the dispatch loop is bounded — with a model stub that proposes
a (new) tool call on every round and never exceeds the time budget, chat
terminates at the 100-round limit with the round-limit message; and if the
wall clock exceeds the 5-minute budget at the top of a reachable round, chat
returns the timeout message — in both cases a user-facing string, not a
raised exception. -/
theorem c2_bounded_rounds :
    (∀ (queryMode : String) (loggedIn : Bool) (env : String → Json → CallOutcome)
        (rounds : Nat → RoundEnv) (msgs0 : List Turn) (user : String),
      (∀ i, continuesRound (rounds i)) →
      (chat queryMode loggedIn env rounds msgs0 user).1 = .answer roundLimitMsg) ∧
    (∀ (queryMode : String) (loggedIn : Bool) (env : String → Json → CallOutcome)
        (rounds : Nat → RoundEnv) (msgs0 : List Turn) (user : String) (k : Nat),
      k < maxRounds →
      (∀ j, j < k → continuesRound (rounds j)) →
      (rounds k).abortedBefore = false → chatTimeoutMs < (rounds k).elapsed →
      (chat queryMode loggedIn env rounds msgs0 user).1 = .answer chatTimeoutMsg) := by
  constructor
  · intro queryMode loggedIn env rounds msgs0 user h
    obtain ⟨msgs', heq⟩ := chatAux_reach queryMode loggedIn env rounds
      maxRounds 0 0 (msgs0 ++ [.userMsg user]) (fun j _ => by simpa using h j)
    have hchat : chat queryMode loggedIn env rounds msgs0 user
        = chatAux queryMode loggedIn env rounds (maxRounds + 0) 0
            (msgs0 ++ [.userMsg user]) := by
      rw [chat]
      rfl
    rw [hchat, heq, chatAux]
  · intro queryMode loggedIn env rounds msgs0 user k hk h hb he
    obtain ⟨m, hm⟩ : ∃ m, maxRounds - k = m + 1 := ⟨maxRounds - k - 1, by omega⟩
    obtain ⟨msgs', heq⟩ := chatAux_reach queryMode loggedIn env rounds
      k (maxRounds - k) 0 (msgs0 ++ [.userMsg user]) (fun j hj => by simpa using h j hj)
    have hchat : chat queryMode loggedIn env rounds msgs0 user
        = chatAux queryMode loggedIn env rounds (k + (maxRounds - k)) 0
            (msgs0 ++ [.userMsg user]) := by
      rw [chat]
      congr 1
      omega
    rw [hchat, heq, Nat.zero_add, hm, chatAux]
    rw [chatStep, hb]
    simp only [Bool.false_eq_true, if_false]
    rw [if_pos he]

/-- Claim C6: if cancellation fires while the adapter call of a round is in
flight (the call throws AbortError, or it returns but the signal is seen set
at the post-call check), chat resolves with the fixed stopped-by-user
message, the conversation is left exactly as it was before the round (the
round's partially accumulated assistant text is discarded, not appended),
and the returned value is that fixed string, not the partial text. -/
theorem c6_cancellation :
    (∀ (queryMode : String) (loggedIn : Bool) (env : String → Json → CallOutcome)
        (msgs : List Turn) (r : RoundEnv),
      r.abortedBefore = false → r.elapsed ≤ chatTimeoutMs →
      r.outcome = .abortError →
      chatStep queryMode loggedIn env msgs r = .inr (.answer stoppedMsg, msgs)) ∧
    (∀ (queryMode : String) (loggedIn : Bool) (env : String → Json → CallOutcome)
        (msgs : List Turn) (r : RoundEnv) (resp : OAResponse),
      r.abortedBefore = false → r.elapsed ≤ chatTimeoutMs →
      r.outcome = .ok resp → r.abortedAfter = true →
      chatStep queryMode loggedIn env msgs r = .inr (.answer stoppedMsg, msgs)) ∧
    (∀ (queryMode : String) (loggedIn : Bool) (env : String → Json → CallOutcome)
        (rounds : Nat → RoundEnv) (msgs0 : List Turn) (user : String) (k : Nat),
      k < maxRounds →
      (∀ j, j < k → continuesRound (rounds j)) →
      (rounds k).abortedBefore = false → (rounds k).elapsed ≤ chatTimeoutMs →
      ((rounds k).outcome = .abortError ∨
        ∃ resp, (rounds k).outcome = .ok resp ∧ (rounds k).abortedAfter = true) →
      (chat queryMode loggedIn env rounds msgs0 user).1 = .answer stoppedMsg) := by
  have step1 : ∀ (queryMode : String) (loggedIn : Bool)
      (env : String → Json → CallOutcome) (msgs : List Turn) (r : RoundEnv),
      r.abortedBefore = false → r.elapsed ≤ chatTimeoutMs →
      r.outcome = .abortError →
      chatStep queryMode loggedIn env msgs r = .inr (.answer stoppedMsg, msgs) := by
    intro queryMode loggedIn env msgs r h1 h2 h3
    rw [chatStep, h1, h3]
    simp only [Bool.false_eq_true, if_false]
    rw [if_neg (by omega)]
  have step2 : ∀ (queryMode : String) (loggedIn : Bool)
      (env : String → Json → CallOutcome) (msgs : List Turn) (r : RoundEnv)
      (resp : OAResponse),
      r.abortedBefore = false → r.elapsed ≤ chatTimeoutMs →
      r.outcome = .ok resp → r.abortedAfter = true →
      chatStep queryMode loggedIn env msgs r = .inr (.answer stoppedMsg, msgs) := by
    intro queryMode loggedIn env msgs r resp h1 h2 h3 h4
    rw [chatStep, h1, h3]
    simp only [Bool.false_eq_true, if_false]
    rw [if_neg (by omega), h4]
    simp only [if_true]
  refine ⟨step1, step2, ?_⟩
  intro queryMode loggedIn env rounds msgs0 user k hk h hb he habort
  obtain ⟨m, hm⟩ : ∃ m, maxRounds - k = m + 1 := ⟨maxRounds - k - 1, by omega⟩
  obtain ⟨msgs', heq⟩ := chatAux_reach queryMode loggedIn env rounds
    k (maxRounds - k) 0 (msgs0 ++ [.userMsg user]) (fun j hj => by simpa using h j hj)
  have hchat : chat queryMode loggedIn env rounds msgs0 user
      = chatAux queryMode loggedIn env rounds (k + (maxRounds - k)) 0
          (msgs0 ++ [.userMsg user]) := by
    rw [chat]
    congr 1
    omega
  rw [hchat, heq, Nat.zero_add, hm, chatAux]
  rcases habort with h3 | ⟨resp, h3, h4⟩
  · rw [step1 queryMode loggedIn env msgs' (rounds k) hb he h3]
  · rw [step2 queryMode loggedIn env msgs' (rounds k) resp hb he h3 h4]

/-- Witness for C2 at a concrete tool-looping stub and a concrete stub whose
first round is past the time budget. -/
theorem c2_bounded_rounds_witness :
    (chat "compact" true envW3 roundsToolLoop [] "hi").1 = .answer roundLimitMsg ∧
    (chat "compact" true envW3 roundsLate [] "hi").1 = .answer chatTimeoutMsg :=
  ⟨c2_bounded_rounds.1 "compact" true envW3 roundsToolLoop [] "hi"
      (fun i => ⟨rfl, by show (0 : Nat) ≤ chatTimeoutMs; decide, rfl,
        ⟨"", none, [⟨"call_a", "zstack_query", "\x7b\x7d"⟩]⟩, rfl, by decide⟩),
   c2_bounded_rounds.2 "compact" true envW3 roundsLate [] "hi" 0 (by decide)
      (fun j hj => absurd hj (by omega)) rfl (by decide)⟩

/-- Witness for C6 at a concrete aborted round. -/
theorem c6_cancellation_witness :
    chatStep "compact" true envW3 [] ⟨false, 0, .abortError, false⟩
      = .inr (.answer stoppedMsg, []) ∧
    (chat "compact" true envW3 roundsAborted [] "hi").1 = .answer stoppedMsg :=
  ⟨c6_cancellation.1 "compact" true envW3 [] ⟨false, 0, .abortError, false⟩ rfl
      (by decide) rfl,
   c6_cancellation.2.2 "compact" true envW3 roundsAborted [] "hi" 0 (by decide)
      (fun j hj => absurd hj (by omega)) rfl (by decide) (Or.inl rfl)⟩

theorem foldl_set_perm {α : Type} (g : Nat → α) {o₁ o₂ : List Nat} (h : o₁.Perm o₂) :
    ∀ acc : List (Option α),
      o₁.foldl (fun acc i => acc.set i (some (g i))) acc
        = o₂.foldl (fun acc i => acc.set i (some (g i))) acc := by
  induction h with
  | nil => exact fun _ => rfl
  | cons x _ ih =>
    intro acc
    simp only [List.foldl_cons]
    exact ih _
  | swap x y l =>
    intro acc
    simp only [List.foldl_cons]
    by_cases hxy : y = x
    · subst hxy
      rfl
    · rw [List.set_comm _ _ acc hxy]
  | trans _ _ ih₁ ih₂ =>
    intro acc
    rw [ih₁, ih₂]

theorem foldl_set_getElem? {α : Type} (g : Nat → α) :
    ∀ (o : List Nat) (acc : List (Option α)) (k : Nat),
      (o.foldl (fun acc i => acc.set i (some (g i))) acc)[k]?
        = if k ∈ o ∧ k < acc.length then some (some (g k)) else acc[k]? := by
  intro o
  induction o with
  | nil => intro acc k; simp
  | cons i rest ih =>
    intro acc k
    simp only [List.foldl_cons]
    rw [ih]
    by_cases hmem : k ∈ rest ∧ k < (acc.set i (some (g i))).length
    · rw [if_pos hmem, if_pos ⟨List.mem_cons_of_mem _ hmem.1, by
        have := hmem.2
        simpa using this⟩]
    · rw [if_neg hmem]
      by_cases hki : k = i
      · subst hki
        by_cases hlen : k < acc.length
        · rw [if_pos ⟨List.mem_cons_self k rest, hlen⟩]
          simp [hlen]
        · rw [if_neg (by exact fun hcon => hlen hcon.2)]
          rw [List.set_eq_of_length_le (by omega)]
      · rw [List.getElem?_set_ne (by omega)]
        have : ¬(k ∈ i :: rest ∧ k < acc.length) := by
          intro hcon
          rcases List.mem_cons.mp hcon.1 with hh | hh
          · exact hki hh
          · exact hmem ⟨hh, by simpa using hcon.2⟩
        rw [if_neg this]

theorem map_getD_range {α β : Type} [Inhabited α] (f : α → β) (l : List α) :
    (List.range l.length).map (fun i => f (l.getD i default)) = l.map f := by
  apply List.ext_getElem?
  intro k
  by_cases hk : k < l.length
  · rw [List.getElem?_map, List.getElem?_map]
    rw [List.getElem?_range hk, List.getElem?_eq_getElem hk]
    simp [List.getD_eq_getElem?_getD, List.getElem?_eq_getElem hk]
  · rw [List.getElem?_map, List.getElem?_map]
    rw [List.getElem?_eq_none (by simpa using hk), List.getElem?_eq_none (by omega)]
    rfl

theorem roundScheduled_canonical (queryMode : String) (loggedIn : Bool)
    (env : String → Json → CallOutcome) (tcs : List OAToolCall) :
    roundScheduled queryMode loggedIn env tcs (List.range tcs.length)
      = (executeOAToolCalls queryMode loggedIn env tcs).map some := by
  apply List.ext_getElem?
  intro k
  rw [roundScheduled, foldl_set_getElem?]
  rw [show (executeOAToolCalls queryMode loggedIn env tcs).map some
      = (List.range tcs.length).map
          (fun i => some (runOAToolCall queryMode loggedIn env (tcs.getD i default)))
    from by
      rw [executeOAToolCalls,
          ← map_getD_range (runOAToolCall queryMode loggedIn env) tcs,
          List.map_map]
      rfl]
  by_cases hk : k < tcs.length
  · rw [if_pos ⟨List.mem_range.mpr hk, by simpa using hk⟩]
    rw [List.getElem?_map, List.getElem?_range hk]
    rfl
  · rw [if_neg (by intro hcon; exact hk (List.mem_range.mp hcon.1))]
    rw [List.getElem?_replicate, if_neg hk, List.getElem?_map,
        List.getElem?_eq_none (l := List.range tcs.length) (by simpa using hk)]
    rfl

/-- Claim C9: one round's tool-result transcript is deterministic in the
completion order of the concurrent executions — any two completion schedules
that are permutations of the call indices produce the same slot-indexed
result array, namely the results of the proposing turn's calls in proposal
order (the array the engine appends to the conversation). -/
theorem c9_deterministic_order (queryMode : String) (loggedIn : Bool)
    (env : String → Json → CallOutcome) (tcs : List OAToolCall)
    (o₁ o₂ : List Nat)
    (h₁ : o₁.Perm (List.range tcs.length)) (h₂ : o₂.Perm (List.range tcs.length)) :
    roundScheduled queryMode loggedIn env tcs o₁
      = (executeOAToolCalls queryMode loggedIn env tcs).map some ∧
    roundScheduled queryMode loggedIn env tcs o₂
      = (executeOAToolCalls queryMode loggedIn env tcs).map some ∧
    roundScheduled queryMode loggedIn env tcs o₁
      = roundScheduled queryMode loggedIn env tcs o₂ := by
  have e₁ : roundScheduled queryMode loggedIn env tcs o₁
      = roundScheduled queryMode loggedIn env tcs (List.range tcs.length) := by
    rw [roundScheduled, roundScheduled]
    exact foldl_set_perm _ h₁ _
  have e₂ : roundScheduled queryMode loggedIn env tcs o₂
      = roundScheduled queryMode loggedIn env tcs (List.range tcs.length) := by
    rw [roundScheduled, roundScheduled]
    exact foldl_set_perm _ h₂ _
  have hc := roundScheduled_canonical queryMode loggedIn env tcs
  exact ⟨e₁.trans hc, e₂.trans hc, e₁.trans e₂.symm⟩

/-- Witness for C9: two completion orders of the same two-call round. -/
theorem c9_deterministic_order_witness :
    roundScheduled "compact" true envW3
        [⟨"call_a", "zstack_query", "\x7b\x7d"⟩, ⟨"call_b", "query_vms", "\x7b\x7d"⟩]
        [1, 0]
      = roundScheduled "compact" true envW3
        [⟨"call_a", "zstack_query", "\x7b\x7d"⟩, ⟨"call_b", "query_vms", "\x7b\x7d"⟩]
        [0, 1] :=
  (c9_deterministic_order "compact" true envW3
    [⟨"call_a", "zstack_query", "\x7b\x7d"⟩, ⟨"call_b", "query_vms", "\x7b\x7d"⟩]
    [1, 0] [0, 1] (by decide) (by decide)).2.2
